import Mathlib

/-!
Verification development for the selene mutation-testing engine.

The definitions below are a shallow embedding of the Go sources:
  - internal/mutator: the AST fragment the operators inspect (binary
    expressions, unary expressions, parenthesised expressions, identifiers,
    literals, if statements and increment/decrement statements), the
    Mutation record, and every operator of the catalog;
  - internal/runner: the test-driver result model (runGoTest,
    parseGoTestOutput), the worker classification step, the Report and the
    collector, the configuration defaulting at the top of Run, the overlay
    descriptor writer, and the coverage index (LoadCoverage, IsCovered).

Go machine integers are modelled as Int (counters that only grow from zero
as Nat); Go closures over an AST node are modelled, as the design notes of
the project themselves suggest for closure-free languages, as the captured
data (the new and the original operator token) plus one dispatch function
for apply and one for revert.
-/

namespace Selene

/-- Go token.Token, restricted to the tokens the mutation catalog inspects
or produces, plus two tokens (SHL, XOR) that the operator tests use as
shapes every operator must ignore. -/
inductive Tok where
  | ADD | SUB | MUL | QUO
  | EQL | NEQ | LSS | GTR | LEQ | GEQ
  | LAND | LOR | NOT
  | INC | DEC
  | SHL | XOR
deriving DecidableEq, Repr

/-- Token spelling, as go/printer renders it. -/
def Tok.text : Tok → String
  | .ADD => "+"
  | .SUB => "-"
  | .MUL => "*"
  | .QUO => "/"
  | .EQL => "=="
  | .NEQ => "!="
  | .LSS => "<"
  | .GTR => ">"
  | .LEQ => "<="
  | .GEQ => ">="
  | .LAND => "&&"
  | .LOR => "||"
  | .NOT => "!"
  | .INC => "++"
  | .DEC => "--"
  | .SHL => "<<"
  | .XOR => "^"

/-- The go/ast expression fragment the catalog operators look at.
Position fields mirror the token.Pos fields of the Go structs:
ident and basicLit carry their start offset, binaryExpr carries OpPos,
unaryExpr carries OpPos, parenExpr carries Lparen. -/
inductive Expr where
  | ident (name : String) (namePos : Nat)
  | basicLit (value : String) (valuePos : Nat)
  | binaryExpr (x : Expr) (opPos : Nat) (op : Tok) (y : Expr)
  | unaryExpr (opPos : Nat) (op : Tok) (x : Expr)
  | parenExpr (lparen : Nat) (x : Expr)
deriving DecidableEq, Repr

/-- ast.Expr Pos(): a binary expression starts where its left operand
starts, a unary expression at its operator, a parenthesised expression at
the opening parenthesis. -/
def Expr.pos : Expr → Nat
  | .ident _ p => p
  | .basicLit _ p => p
  | .binaryExpr x _ _ _ => x.pos
  | .unaryExpr p _ _ => p
  | .parenExpr p _ => p

/-- OpPos of a binary expression; none for every other shape (the Go
code reads OpPos only after a type assertion to BinaryExpr). -/
def Expr.opPos : Expr → Option Nat
  | .binaryExpr _ p _ _ => some p
  | _ => none

/-- The go/ast statement fragment the catalog operators look at: if
statements (keyword position, condition, body, else branch, with empty for
an absent branch), increment/decrement statements (IncDecStmt with X,
TokPos, Tok), and expression statements. -/
inductive Stmt where
  | ifStmt (ifPos : Nat) (cond : Expr) (body : Stmt) (els : Stmt)
  | incDecStmt (x : Expr) (tokPos : Nat) (tok : Tok)
  | exprStmt (e : Expr)
  | empty
deriving DecidableEq, Repr

/-- ast.Stmt Pos(): an if statement starts at the if keyword, an
IncDecStmt where its operand starts. -/
def Stmt.pos : Stmt → Nat
  | .ifStmt p _ _ _ => p
  | .incDecStmt x _ _ => x.pos
  | .exprStmt e => e.pos
  | .empty => 0

/-- ast.Node as the operators receive it from the traversal. -/
inductive Node where
  | expr (e : Expr)
  | stmt (s : Stmt)
deriving DecidableEq, Repr

/-- ast.Node Pos(). -/
def Node.pos : Node → Nat
  | .expr e => e.pos
  | .stmt s => s.pos

/-- Re-serialization of the modelled fragment to source text; stands for
printer.Fprint on the nodes the catalog can touch. -/
def Expr.serialize : Expr → String
  | .ident name _ => name
  | .basicLit v _ => v
  | .binaryExpr x _ op y => x.serialize ++ " " ++ op.text ++ " " ++ y.serialize
  | .unaryExpr _ op x => op.text ++ x.serialize
  | .parenExpr _ x => "(" ++ x.serialize ++ ")"

/-- Re-serialization of statements. -/
def Stmt.serialize : Stmt → String
  | .ifStmt _ cond body els =>
      "if " ++ cond.serialize ++ " \x7b " ++ body.serialize ++ " \x7d" ++
        (match els with
         | .empty => ""
         | e => " else \x7b " ++ e.serialize ++ " \x7d")
  | .incDecStmt x _ tok => x.serialize ++ tok.text
  | .exprStmt e => e.serialize
  | .empty => ""

/-- Re-serialization of a node. -/
def Node.serialize : Node → String
  | .expr e => e.serialize
  | .stmt s => s.serialize

/-- mutator.Mutation. The Go record carries two closures Apply and Revert
over the captured node; both only ever write one token field of that node
(expr.Op for the binary operators, stmt.Tok for IncDecStmt), so the
closure pair is represented by the two tokens it writes, and the shared
dispatch functions applyMutation and revertMutation below perform the
write. -/
structure Mutation where
  ID : String
  Pos : Nat
  newOp : Tok
  originalOp : Tok
deriving DecidableEq, Repr

/-- The single in-place write both closures perform on the captured node:
replace the operator token of a binary expression, or the token of an
IncDecStmt; every other node shape is never captured and is untouched. -/
def setNodeOp : Node → Tok → Node
  | .expr (.binaryExpr x p _ y), t => .expr (.binaryExpr x p t y)
  | .stmt (.incDecStmt x p _), t => .stmt (.incDecStmt x p t)
  | n, _ => n

/-- Effect of Mutation.Apply on the captured node. -/
def applyMutation (m : Mutation) (n : Node) : Node :=
  setNodeOp n m.newOp

/-- Effect of Mutation.Revert on the captured node. -/
def revertMutation (m : Mutation) (n : Node) : Node :=
  setNodeOp n m.originalOp

/-- The operator table of ArithmeticMutator.Check (the switch on expr.Op):
ADD to SUB, SUB to ADD, MUL to QUO, QUO to MUL, default nil. -/
def arithmeticNewOp : Tok → Option Tok
  | .ADD => some .SUB
  | .SUB => some .ADD
  | .MUL => some .QUO
  | .QUO => some .MUL
  | _ => none

/-- ArithmeticMutator.Check from internal/mutator (Mutation-style
interface): on a binary expression whose operator is arithmetic it returns
one Mutation whose Pos is expr.Pos() and whose ID embeds expr.Pos(). -/
def ArithmeticMutator.Check (n : Node) : List Mutation :=
  match n with
  | .expr (.binaryExpr x opPos op y) =>
    match arithmeticNewOp op with
    | some newOp =>
      [{ ID := "Arithmetic_" ++ toString (Expr.binaryExpr x opPos op y).pos
       , Pos := (Expr.binaryExpr x opPos op y).pos
       , newOp := newOp
       , originalOp := op }]
    | none => []
  | _ => []

/-- The operator table of ComparisonMutator.Check: EQL and NEQ swap,
LSS maps to GEQ, GTR to LEQ, LEQ to GTR, GEQ to LSS, default nil. -/
def comparisonNewOp : Tok → Option Tok
  | .EQL => some .NEQ
  | .NEQ => some .EQL
  | .LSS => some .GEQ
  | .GTR => some .LEQ
  | .LEQ => some .GTR
  | .GEQ => some .LSS
  | _ => none

/-- ComparisonMutator.Check from internal/mutator (Mutation-style
interface). -/
def ComparisonMutator.Check (n : Node) : List Mutation :=
  match n with
  | .expr (.binaryExpr x opPos op y) =>
    match comparisonNewOp op with
    | some newOp =>
      [{ ID := "Comparison_" ++ toString (Expr.binaryExpr x opPos op y).pos
       , Pos := (Expr.binaryExpr x opPos op y).pos
       , newOp := newOp
       , originalOp := op }]
    | none => []
  | _ => []

/-- The operator table of BooleanMutator.Check: LAND and LOR swap. -/
def booleanNewOp : Tok → Option Tok
  | .LAND => some .LOR
  | .LOR => some .LAND
  | _ => none

/-- BooleanMutator.Check from internal/mutator (Mutation-style
interface). -/
def BooleanMutator.Check (n : Node) : List Mutation :=
  match n with
  | .expr (.binaryExpr x opPos op y) =>
    match booleanNewOp op with
    | some newOp =>
      [{ ID := "Boolean_" ++ toString (Expr.binaryExpr x opPos op y).pos
       , Pos := (Expr.binaryExpr x opPos op y).pos
       , newOp := newOp
       , originalOp := op }]
    | none => []
  | _ => []

/-- The operator table of ConditionalsBoundaryMutator.Check: LSS and LEQ
swap, GTR and GEQ swap. -/
def conditionalsBoundaryNewOp : Tok → Option Tok
  | .LSS => some .LEQ
  | .LEQ => some .LSS
  | .GTR => some .GEQ
  | .GEQ => some .GTR
  | _ => none

/-- ConditionalsBoundaryMutator.Check (Mutation-style interface). -/
def ConditionalsBoundaryMutator.Check (n : Node) : List Mutation :=
  match n with
  | .expr (.binaryExpr x opPos op y) =>
    match conditionalsBoundaryNewOp op with
    | some newOp =>
      [{ ID := "ConditionalsBoundary_" ++ toString (Expr.binaryExpr x opPos op y).pos
       , Pos := (Expr.binaryExpr x opPos op y).pos
       , newOp := newOp
       , originalOp := op }]
    | none => []
  | _ => []

/-- The token table of IncrementDecrementMutator.Check: INC and DEC
swap. -/
def incDecNewTok : Tok → Option Tok
  | .INC => some .DEC
  | .DEC => some .INC
  | _ => none

/-- IncrementDecrementMutator.Check (Mutation-style interface): on an
IncDecStmt it returns one Mutation whose Pos is stmt.Pos(). -/
def IncrementDecrementMutator.Check (n : Node) : List Mutation :=
  match n with
  | .stmt (.incDecStmt x tokPos tok) =>
    match incDecNewTok tok with
    | some newTok =>
      [{ ID := "IncrementDecrement_" ++ toString (Stmt.incDecStmt x tokPos tok).pos
       , Pos := (Stmt.incDecStmt x tokPos tok).pos
       , newOp := newTok
       , originalOp := tok }]
    | none => []
  | _ => []

/-- ReverseIfCond.Check (the boolean-interface mutator of
reverse_if_cond.go): true exactly when the node is an if statement, with
no inspection of the condition shape. -/
def ReverseIfCond.Check (n : Node) : Bool :=
  match n with
  | .stmt (.ifStmt _ _ _ _) => true
  | _ => false

/-- ReverseIfCond.Apply: wrap the condition in a logical not,
parenthesising first when the condition is a binary expression (the new
ParenExpr and UnaryExpr carry position 0, token.NoPos). -/
def ReverseIfCond.Apply (n : Node) : Node :=
  match n with
  | .stmt (.ifStmt p cond body els) =>
    let cond2 :=
      match cond with
      | .binaryExpr x q op y => Expr.parenExpr 0 (Expr.binaryExpr x q op y)
      | c => c
    .stmt (.ifStmt p (Expr.unaryExpr 0 Tok.NOT cond2) body els)
  | other => other

/-- ReverseIfCond.Position: node.Pos(). -/
def ReverseIfCond.Position (n : Node) : Nat :=
  n.pos

/-- Comparison.Check (the boolean-interface mutator of comparison.go):
true exactly on a binary expression with a relational operator. -/
def Comparison.Check (n : Node) : Bool :=
  match n with
  | .expr (.binaryExpr _ _ op _) =>
    match op with
    | .EQL | .NEQ | .LSS | .LEQ | .GTR | .GEQ => true
    | _ => false
  | _ => false

/-- Comparison.Position: OpPos after an unchecked type assertion to
BinaryExpr; none models the panic on any other node shape. -/
def Comparison.Position (n : Node) : Option Nat :=
  match n with
  | .expr e => e.opPos
  | _ => none

/-- Logical.Check (the boolean-interface mutator of logical.go): true
exactly on a binary expression with LAND or LOR. -/
def Logical.Check (n : Node) : Bool :=
  match n with
  | .expr (.binaryExpr _ _ op _) =>
    match op with
    | .LAND | .LOR => true
    | _ => false
  | _ => false

/-- Logical.Position: OpPos after an unchecked type assertion to
BinaryExpr. -/
def Logical.Position (n : Node) : Option Nat :=
  match n with
  | .expr e => e.opPos
  | _ => none

/-- SwapArithmetic.Check (the boolean-interface mutator of
swap_arithmetic.go). -/
def SwapArithmetic.Check (n : Node) : Bool :=
  match n with
  | .expr (.binaryExpr _ _ op _) =>
    match op with
    | .ADD | .SUB | .MUL | .QUO => true
    | _ => false
  | _ => false

/-- SwapArithmetic.Position: OpPos when the node is a binary expression,
node.Pos() otherwise. -/
def SwapArithmetic.Position (n : Node) : Nat :=
  match n with
  | .expr (.binaryExpr _ p _ _) => p
  | other => other.pos

/-- runner.TestEvent, the decoded go-test JSON event. Time is kept as its
RFC3339 text, Elapsed (a float64 of seconds) as an exact rational; neither
field is inspected by the classification logic. -/
structure TestEvent where
  Time : String
  Action : String
  Package : String
  Test : String
  Elapsed : Rat
  Output : String
deriving DecidableEq, Repr

/-- One step of json.Decoder.Decode over the combined output stream:
either a successfully decoded event or a decode failure. End of stream is
the end of the list. An empty output byte slice is the empty list. -/
inductive DecodeToken where
  | ok (e : TestEvent)
  | bad
deriving DecidableEq, Repr

/-- runner.parseGoTestOutput: decode greedily until EOF; on a decode
error, stop and return the events decoded so far together with the error
(the Bool is true exactly when the error return value is non-nil). -/
def parseGoTestOutput : List DecodeToken → List TestEvent × Bool
  | [] => ([], false)
  | .ok e :: rest =>
    let r := parseGoTestOutput rest
    (e :: r.1, r.2)
  | .bad :: _ => ([], true)

/-- The error kinds runGoTest can report: the context error when the
timeout fires before the subprocess finishes, the CombinedOutput error
when the command fails with empty output, and the decode error from
parseGoTestOutput. -/
inductive GoTestErr where
  | deadlineExceeded
  | execError
  | decodeError
deriving DecidableEq, Repr

/-- runner.runGoTest, with the process-level effects abstracted:
ctxDoneFirst is true when the select statement sees the context expire
before the subprocess finishes (the process group is then killed and
(nil, ctx.Err()) is returned); cmdErr is whether CombinedOutput returned a
non-nil error; out is the combined output stream. Following the Go code,
a command error with empty output is returned as is, and otherwise the
output is parsed, propagating the events list and any decode error. -/
def runGoTest (ctxDoneFirst : Bool) (cmdErr : Bool) (out : List DecodeToken) :
    List TestEvent × Option GoTestErr :=
  if ctxDoneFirst then ([], some .deadlineExceeded)
  else if cmdErr && out.isEmpty then ([], some .execError)
  else
    let p := parseGoTestOutput out
    (p.1, if p.2 then some .decodeError else none)

/-- The classification step of the worker loop in runner.Run: status
starts as survived with zero build failures; on a driver error the status
is killed (timeout) when ctx.Err() is DeadlineExceeded (deadlineExceeded
argument) and otherwise killed with the build-failure count set to 1; with
no error the status is killed when some event has Action fail. Returns
(status, buildFailures). -/
def classifyOutcome (deadlineExceeded : Bool) (events : List TestEvent)
    (err : Option GoTestErr) : String × Nat :=
  match err with
  | some _ => if deadlineExceeded then ("killed (timeout)", 0) else ("killed", 1)
  | none =>
    if events.any (fun e => e.Action == "fail") then ("killed", 0) else ("survived", 0)

/-- runner.Report. The Go fields are int counters that only ever grow
from the zero value, modelled as Nat. -/
structure Report where
  Total : Nat
  Killed : Nat
  Timeouts : Nat
  Survived : Nat
  Uncovered : Nat
  BuildFailures : Nat
deriving DecidableEq, Repr

/-- Report.Score: zero when Total is zero, otherwise
(Killed + Timeouts) / Total * 100. The Go float64 arithmetic is modelled
exactly over the rationals. -/
def Report.Score (r : Report) : Rat :=
  if r.Total = 0 then 0
  else ((r.Killed : Rat) + (r.Timeouts : Rat)) / (r.Total : Rat) * 100

/-- runner.mutationResult as sent over the results channel. -/
structure MutationResult where
  status : String
  mutID : String
  filename : String
  line : Int
  col : Int
  buildFailures : Nat
deriving DecidableEq, Repr

/-- One iteration of the collector goroutine of runner.Run: increment
Total, then the counter selected by the status switch (an unknown status
increments no counter), then add the build failures of the result. -/
def processResult (report : Report) (res : MutationResult) : Report :=
  let r1 : Report := { report with Total := report.Total + 1 }
  let r2 : Report :=
    if res.status = "killed" then { r1 with Killed := r1.Killed + 1 }
    else if res.status = "killed (timeout)" then { r1 with Timeouts := r1.Timeouts + 1 }
    else if res.status = "survived" then { r1 with Survived := r1.Survived + 1 }
    else if res.status = "uncovered" then { r1 with Uncovered := r1.Uncovered + 1 }
    else r1
  { r2 with BuildFailures := r2.BuildFailures + res.buildFailures }

/-- The collector goroutine: drain the results channel into a fresh
Report. -/
def collectReport (results : List MutationResult) : Report :=
  results.foldl processResult
    { Total := 0, Killed := 0, Timeouts := 0, Survived := 0, Uncovered := 0
    , BuildFailures := 0 }

/-- runner.Config. Timeout is a time.Duration, an int64 count of
nanoseconds. The Mutators slice carries the operator closures and takes no
part in the defaulting logic, so it is not represented. -/
structure Config where
  Verbose : Bool
  MutationDir : String
  Workers : Int
  Seed : Int
  Shuffle : Bool
  Timeout : Int
deriving DecidableEq, Repr

/-- The defaulting prologue of runner.Run: Workers at most zero becomes
runtime.NumCPU(), Timeout at most zero becomes 10 seconds, Seed zero
becomes time.Now().UnixNano(). -/
def applyConfigDefaults (numCPU : Int) (nowUnixNano : Int) (config : Config) : Config :=
  let c1 : Config :=
    if config.Workers ≤ 0 then { config with Workers := numCPU } else config
  let c2 : Config :=
    if c1.Timeout ≤ 0 then { c1 with Timeout := 10 * 1000000000 } else c1
  if c2.Seed = 0 then { c2 with Seed := nowUnixNano } else c2

/-- The overlay descriptor document: the struct with the single field
Replace that createOverlayFile marshals. The Go map from original path to
variant path is modelled as an association list. -/
structure OverlayDoc where
  Replace : List (String × String)
deriving DecidableEq, Repr

/-- runner.createOverlayFile: marshal the document and write it to the
overlay path, replacing any previous file. Marshalling a map of strings
cannot fail; createFails abstracts failure of os.Create or of the write
or close, the only error sources of the function. No inspection of the
mapped paths occurs. -/
def createOverlayFile (createFails : Bool) (overlays : List (String × String)) :
    Except Unit OverlayDoc :=
  if createFails then Except.error () else Except.ok { Replace := overlays }

/-- strings.HasPrefix. Implemented over the character list so that the
kernel can evaluate it on concrete inputs. -/
def goHasPrefix (s pre : String) : Bool :=
  pre.toList.isPrefixOf s.toList

/-- strings.HasSuffix, over the character list. -/
def goHasSuffix (s suf : String) : Bool :=
  suf.toList.isSuffixOf s.toList

/-- strings.Split with a one-character separator, over the character
list: the list of (possibly empty) runs between separators. -/
def goSplitList (sep : Char) : List Char → List (List Char)
  | [] => [[]]
  | c :: rest =>
    let r := goSplitList sep rest
    if c = sep then [] :: r
    else
      match r with
      | h :: t => (c :: h) :: t
      | [] => [[c]]

/-- strings.Split with a one-character separator (every separator used by
the coverage parser is one character). -/
def goSplit (s : String) (sep : Char) : List String :=
  (goSplitList sep s.toList).map String.mk

/-- filepath.IsAbs on unix: the path starts with a slash. -/
def goIsAbs (path : String) : Bool :=
  goHasPrefix path "/"

/-- Numeric value of a digit list. -/
def digitsVal (l : List Char) : Int :=
  l.foldl (fun a c => a * 10 + ((c.toNat : Int) - 48)) 0

/-- strconv.Atoi as used by LoadCoverage with the error discarded: the
value on a well-formed optionally signed decimal literal, and the zero Go
leaves in the variable otherwise. Overflow of the 64-bit range is not
modelled; coverage profiles stay far below it. -/
def atoi (s : String) : Int :=
  match s.toList with
  | '-' :: rest =>
    if rest ≠ [] ∧ rest.all Char.isDigit then - digitsVal rest else 0
  | '+' :: rest =>
    if rest ≠ [] ∧ rest.all Char.isDigit then digitsVal rest else 0
  | l =>
    if l ≠ [] ∧ l.all Char.isDigit then digitsVal l else 0

/-- Runs between characters satisfying p, over the character list. -/
def splitWhenList (p : Char → Bool) : List Char → List (List Char)
  | [] => [[]]
  | c :: rest =>
    let r := splitWhenList p rest
    if p c then [] :: r
    else
      match r with
      | h :: t => (c :: h) :: t
      | [] => [[c]]

/-- strings.Fields: the maximal runs of non-whitespace characters. -/
def goFields (s : String) : List String :=
  ((splitWhenList (fun c => c.isWhitespace) s.toList).filter
    (fun x => x ≠ [])).map String.mk

/-- runner.Block of coverage.go. -/
structure Block where
  StartLine : Int
  StartCol : Int
  EndLine : Int
  EndCol : Int
  Count : Int
deriving DecidableEq, Repr

/-- runner.Coverage of coverage.go: the map from profile file key to its
blocks, modelled as an association list (IsCovered only quantifies over
the entries, so iteration order is immaterial). -/
structure Coverage where
  Blocks : List (String × List Block)
deriving DecidableEq, Repr

/-- cov.Blocks[file] = append(cov.Blocks[file], b) on the association
list: extend the entry of the key, or add a first entry for it. -/
def addBlock : List (String × List Block) → String → Block → List (String × List Block)
  | [], file, b => [(file, [b])]
  | (k, bs) :: rest, file, b =>
    if k = file then (k, bs ++ [b]) :: rest
    else (k, bs) :: addBlock rest file b

/-- One iteration of the scanner loop of LoadCoverage: skip the mode
header, split on the colon into exactly two parts, split the rest into
exactly three fields, split the range on the comma into exactly two
positions, read line.col numbers with Atoi, and keep the block only when
its count is positive. (Go indexes the line.col parts at 0 and 1 and
panics when the dot is absent; the getD default only turns that panic
into a parse of the empty string, and no malformed line of that shape is
relied on anywhere below.) -/
def loadCoverageLine (acc : List (String × List Block)) (line : String) :
    List (String × List Block) :=
  if goHasPrefix line "mode:" then acc
  else
    match goSplit line ':' with
    | [file, rest] =>
      match goFields rest with
      | [rng, _numStmt, countStr] =>
        match goSplit rng ',' with
        | [startStr, endStr] =>
          let startParts := goSplit startStr '.'
          let endParts := goSplit endStr '.'
          let startLine := atoi (startParts.getD 0 "")
          let startCol := atoi (startParts.getD 1 "")
          let endLine := atoi (endParts.getD 0 "")
          let endCol := atoi (endParts.getD 1 "")
          let count := atoi countStr
          if count > 0 then
            addBlock acc file
              { StartLine := startLine, StartCol := startCol
              , EndLine := endLine, EndCol := endCol, Count := count }
          else acc
        | _ => acc
      | _ => acc
    | _ => acc

/-- runner.LoadCoverage over the text lines of the profile file. -/
def LoadCoverage (contents : List String) : Coverage :=
  { Blocks := contents.foldl loadCoverageLine [] }

/-- Coverage.IsCovered of coverage.go: some entry whose key is a string
suffix of the filename, or of which the filename is a string suffix, has
a block whose line range contains the line. -/
def Coverage.IsCovered (c : Coverage) (filename : String) (line : Int) : Bool :=
  c.Blocks.any fun kb =>
    (goHasSuffix filename kb.1 || goHasSuffix kb.1 filename) &&
      kb.2.any fun b => decide (b.StartLine ≤ line ∧ line ≤ b.EndLine)

/-- Path segments, split on the slash. -/
def pathSegments (p : String) : List String :=
  goSplit p '/'

/-- a is a path suffix of b: the segments of a are a suffix of the
segments of b. -/
def isPathSuffix (a b : String) : Bool :=
  (pathSegments a).isSuffixOf (pathSegments b)

/-- The rightmost two path segments, when the path has at least two. -/
def lastTwoSegments (p : String) : Option (String × String) :=
  match (pathSegments p).reverse with
  | last :: prev :: _ => some (prev, last)
  | _ => none

/-- Spec wording of the path-matching policy, for comparison with the
implementation: F and the profile key match when one is a path suffix of
the other, or their rightmost two path segments agree. -/
def specPathsMatch (f k : String) : Bool :=
  isPathSuffix k f || isPathSuffix f k ||
    (match lastTwoSegments f, lastTwoSegments k with
     | some a, some b => decide (a = b)
     | _, _ => false)

/-- Spec wording of coverage lookup, for comparison with the
implementation: some block with positive count, stored under a key that
matches the file per specPathsMatch, has a line range containing the
line. -/
def specIsCovered (c : Coverage) (filename : String) (line : Int) : Bool :=
  c.Blocks.any fun kb =>
    specPathsMatch filename kb.1 &&
      kb.2.any fun b =>
        decide (0 < b.Count ∧ b.StartLine ≤ line ∧ line ≤ b.EndLine)

/-! Helper lemmas. -/

/-- Every mutation ArithmeticMutator.Check returns restores the captured
node when reverted after apply. -/
theorem arithmetic_roundtrip (n : Node) (m : Mutation)
    (hm : m ∈ ArithmeticMutator.Check n) :
    revertMutation m (applyMutation m n) = n := by
  cases n with
  | stmt s => simp [ArithmeticMutator.Check] at hm
  | expr e =>
    cases e with
    | binaryExpr x p op y =>
      cases op <;> simp [ArithmeticMutator.Check, arithmeticNewOp] at hm <;>
        (subst hm; rfl)
    | ident a b => simp [ArithmeticMutator.Check] at hm
    | basicLit a b => simp [ArithmeticMutator.Check] at hm
    | unaryExpr a b c => simp [ArithmeticMutator.Check] at hm
    | parenExpr a b => simp [ArithmeticMutator.Check] at hm

/-- Every mutation ComparisonMutator.Check returns restores the captured
node when reverted after apply. -/
theorem comparison_roundtrip (n : Node) (m : Mutation)
    (hm : m ∈ ComparisonMutator.Check n) :
    revertMutation m (applyMutation m n) = n := by
  cases n with
  | stmt s => simp [ComparisonMutator.Check] at hm
  | expr e =>
    cases e with
    | binaryExpr x p op y =>
      cases op <;> simp [ComparisonMutator.Check, comparisonNewOp] at hm <;>
        (subst hm; rfl)
    | ident a b => simp [ComparisonMutator.Check] at hm
    | basicLit a b => simp [ComparisonMutator.Check] at hm
    | unaryExpr a b c => simp [ComparisonMutator.Check] at hm
    | parenExpr a b => simp [ComparisonMutator.Check] at hm

/-- Every mutation BooleanMutator.Check returns restores the captured
node when reverted after apply. -/
theorem boolean_roundtrip (n : Node) (m : Mutation)
    (hm : m ∈ BooleanMutator.Check n) :
    revertMutation m (applyMutation m n) = n := by
  cases n with
  | stmt s => simp [BooleanMutator.Check] at hm
  | expr e =>
    cases e with
    | binaryExpr x p op y =>
      cases op <;> simp [BooleanMutator.Check, booleanNewOp] at hm <;>
        (subst hm; rfl)
    | ident a b => simp [BooleanMutator.Check] at hm
    | basicLit a b => simp [BooleanMutator.Check] at hm
    | unaryExpr a b c => simp [BooleanMutator.Check] at hm
    | parenExpr a b => simp [BooleanMutator.Check] at hm

/-- Every mutation ConditionalsBoundaryMutator.Check returns restores the
captured node when reverted after apply. -/
theorem conditionals_boundary_roundtrip (n : Node) (m : Mutation)
    (hm : m ∈ ConditionalsBoundaryMutator.Check n) :
    revertMutation m (applyMutation m n) = n := by
  cases n with
  | stmt s => simp [ConditionalsBoundaryMutator.Check] at hm
  | expr e =>
    cases e with
    | binaryExpr x p op y =>
      cases op <;> simp [ConditionalsBoundaryMutator.Check, conditionalsBoundaryNewOp] at hm <;>
        (subst hm; rfl)
    | ident a b => simp [ConditionalsBoundaryMutator.Check] at hm
    | basicLit a b => simp [ConditionalsBoundaryMutator.Check] at hm
    | unaryExpr a b c => simp [ConditionalsBoundaryMutator.Check] at hm
    | parenExpr a b => simp [ConditionalsBoundaryMutator.Check] at hm

/-- Every mutation IncrementDecrementMutator.Check returns restores the
captured node when reverted after apply. -/
theorem incdec_roundtrip (n : Node) (m : Mutation)
    (hm : m ∈ IncrementDecrementMutator.Check n) :
    revertMutation m (applyMutation m n) = n := by
  cases n with
  | expr e => simp [IncrementDecrementMutator.Check] at hm
  | stmt s =>
    cases s with
    | incDecStmt x p tok =>
      cases tok <;> simp [IncrementDecrementMutator.Check, incDecNewTok] at hm <;>
        (subst hm; rfl)
    | ifStmt a b c d => simp [IncrementDecrementMutator.Check] at hm
    | exprStmt e => simp [IncrementDecrementMutator.Check] at hm
    | empty => simp [IncrementDecrementMutator.Check] at hm

/-- One collector step preserves the counter balance when the status is
one of the four emitted by producer and workers. -/
theorem processResult_balanced (rep : Report) (r : MutationResult)
    (h : r.status = "killed" ∨ r.status = "killed (timeout)" ∨
      r.status = "survived" ∨ r.status = "uncovered")
    (hrep : rep.Total = rep.Killed + rep.Timeouts + rep.Survived + rep.Uncovered) :
    (processResult rep r).Total
      = (processResult rep r).Killed + (processResult rep r).Timeouts
        + (processResult rep r).Survived + (processResult rep r).Uncovered := by
  rcases h with h | h | h | h <;> simp [processResult, h] <;> omega

/-- Folding the collector step over any result list with the four
statuses preserves the counter balance. -/
theorem foldl_processResult_balanced (results : List MutationResult) :
    ∀ rep : Report,
      (∀ r ∈ results, r.status = "killed" ∨ r.status = "killed (timeout)" ∨
        r.status = "survived" ∨ r.status = "uncovered") →
      rep.Total = rep.Killed + rep.Timeouts + rep.Survived + rep.Uncovered →
      (results.foldl processResult rep).Total
        = (results.foldl processResult rep).Killed
          + (results.foldl processResult rep).Timeouts
          + (results.foldl processResult rep).Survived
          + (results.foldl processResult rep).Uncovered := by
  induction results with
  | nil => intro rep _ hrep; exact hrep
  | cons a t ih =>
    intro rep hgood hrep
    exact ih (processResult rep a)
      (fun r hr => hgood r (List.mem_cons_of_mem a hr))
      (processResult_balanced rep a (hgood a (List.mem_cons_self a t)) hrep)

/-- The score is never negative. -/
theorem report_score_nonneg (r : Report) : 0 ≤ r.Score := by
  rw [Report.Score]
  split
  · exact le_refl 0
  · positivity

/-- The score is at most 100 whenever killed plus timeouts is at most the
total. -/
theorem report_score_le_hundred (r : Report)
    (h : r.Killed + r.Timeouts ≤ r.Total) : r.Score ≤ 100 := by
  rw [Report.Score]
  split
  · norm_num
  · rename_i hT
    have hpos : (0 : Rat) < (r.Total : Rat) := by
      exact_mod_cast Nat.pos_of_ne_zero hT
    have hle : ((r.Killed : Rat) + (r.Timeouts : Rat)) ≤ (r.Total : Rat) := by
      exact_mod_cast h
    calc ((r.Killed : Rat) + (r.Timeouts : Rat)) / (r.Total : Rat) * 100
        ≤ 1 * 100 := by
          apply mul_le_mul_of_nonneg_right ((div_le_one hpos).mpr hle)
          norm_num
      _ = 100 := by norm_num

/-- addBlock keeps every stored count positive when the added block has a
positive count. -/
theorem addBlock_count_pos (acc : List (String × List Block)) (file : String) (b : Block)
    (hacc : ∀ kb ∈ acc, ∀ blk ∈ kb.2, 0 < blk.Count) (hb : 0 < b.Count) :
    ∀ kb ∈ addBlock acc file b, ∀ blk ∈ kb.2, 0 < blk.Count := by
  induction acc with
  | nil =>
    intro kb hkb blk hblk
    simp [addBlock] at hkb
    subst hkb
    simp at hblk
    subst hblk
    exact hb
  | cons hd t ih =>
    obtain ⟨k, bs⟩ := hd
    intro kb hkb blk hblk
    rw [addBlock] at hkb
    by_cases hk : k = file
    · rw [if_pos hk] at hkb
      rcases List.mem_cons.mp hkb with hkb | hkb
      · rw [hkb] at hblk
        rcases List.mem_append.mp hblk with hblk | hblk
        · exact hacc (k, bs) (List.mem_cons_self _ t) blk hblk
        · rw [List.mem_singleton] at hblk
          rw [hblk]
          exact hb
      · exact hacc kb (List.mem_cons_of_mem _ hkb) blk hblk
    · rw [if_neg hk] at hkb
      rcases List.mem_cons.mp hkb with hkb | hkb
      · rw [hkb] at hblk
        exact hacc (k, bs) (List.mem_cons_self _ t) blk hblk
      · exact ih (fun p hp => hacc p (List.mem_cons_of_mem _ hp)) kb hkb blk hblk

/-- One scanner step of LoadCoverage keeps every stored count
positive. -/
theorem loadCoverageLine_count_pos (acc : List (String × List Block)) (line : String)
    (hacc : ∀ kb ∈ acc, ∀ blk ∈ kb.2, 0 < blk.Count) :
    ∀ kb ∈ loadCoverageLine acc line, ∀ blk ∈ kb.2, 0 < blk.Count := by
  rw [loadCoverageLine]
  split
  · exact hacc
  · split
    · split
      · split
        · dsimp only
          split
          · rename_i hcount
            exact addBlock_count_pos acc _ _ hacc hcount
          · exact hacc
        · exact hacc
      · exact hacc
    · exact hacc

/-- Every block stored by LoadCoverage has a positive count: blocks with
count zero are discarded at load time. -/
theorem loadCoverage_count_pos (contents : List String) :
    ∀ kb ∈ (LoadCoverage contents).Blocks, ∀ blk ∈ kb.2, 0 < blk.Count := by
  rw [LoadCoverage]
  simp only
  have haux : ∀ (l : List String) (acc : List (String × List Block)),
      (∀ kb ∈ acc, ∀ blk ∈ kb.2, 0 < blk.Count) →
      ∀ kb ∈ l.foldl loadCoverageLine acc, ∀ blk ∈ kb.2, 0 < blk.Count := by
    intro l
    induction l with
    | nil => intro acc hacc; exact hacc
    | cons a t ih =>
      intro acc hacc
      exact ih (loadCoverageLine acc a) (loadCoverageLine_count_pos acc a hacc)
  exact haux contents [] (by intro kb hkb; simp at hkb)

/-! Claim theorems. -/

/-- C1: the worker classifies a completed task exactly by these rules:
a driver error with the deadline expired gives status killed (timeout);
a driver error without the deadline expired gives status killed with the
build-failure flag 1; a returned event list with some Action fail event
gives killed with flag 0; a returned event list with no fail event gives
survived with flag 0. The first conjunct covers the timeout path of the
driver, on which the returned error is the DeadlineExceeded context
error. -/
theorem C1_worker_classification (cmdErr : Bool) (out : List DecodeToken) (d : Bool) :
    (classifyOutcome true (runGoTest true cmdErr out).1 (runGoTest true cmdErr out).2
        = ("killed (timeout)", 0)) ∧
    ((runGoTest false cmdErr out).2 ≠ none →
      classifyOutcome false (runGoTest false cmdErr out).1 (runGoTest false cmdErr out).2
        = ("killed", 1)) ∧
    ((runGoTest false cmdErr out).2 = none →
      (∃ e ∈ (runGoTest false cmdErr out).1, e.Action = "fail") →
      classifyOutcome d (runGoTest false cmdErr out).1 (runGoTest false cmdErr out).2
        = ("killed", 0)) ∧
    ((runGoTest false cmdErr out).2 = none →
      (∀ e ∈ (runGoTest false cmdErr out).1, e.Action ≠ "fail") →
      classifyOutcome d (runGoTest false cmdErr out).1 (runGoTest false cmdErr out).2
        = ("survived", 0)) := by
  refine ⟨rfl, ?_, ?_, ?_⟩
  · intro h
    rcases hr : (runGoTest false cmdErr out).2 with _ | ek
    · exact absurd hr h
    · rfl
  · intro herr hfail
    rw [herr]
    rcases hfail with ⟨e, he, hact⟩
    have hany : (runGoTest false cmdErr out).1.any (fun e => e.Action == "fail") = true :=
      List.any_eq_true.mpr ⟨e, he, by simp [hact]⟩
    simp [classifyOutcome, hany]
  · intro herr hnofail
    rw [herr]
    have hany : (runGoTest false cmdErr out).1.any (fun e => e.Action == "fail") = false := by
      rw [List.any_eq_false]
      intro e he
      simp [hnofail e he]
    simp [classifyOutcome, hany]

/-- C1 witness: a run with no command error and empty output is
classified survived with zero build failures. -/
theorem C1_worker_classification_witness :
    classifyOutcome false (runGoTest false false []).1 (runGoTest false false []).2
      = ("survived", 0) :=
  (C1_worker_classification false [] false).2.2.2 (by decide) (by decide)

/-- C2: for every mutation any catalog operator produces on any node,
reverting after applying restores the node, structurally and therefore
also per re-serialization; the revert closure writes back the original
operator token. -/
theorem C2_apply_revert_roundtrip (n : Node) (m : Mutation) :
    (m ∈ ArithmeticMutator.Check n →
      revertMutation m (applyMutation m n) = n ∧
      Node.serialize (revertMutation m (applyMutation m n)) = Node.serialize n) ∧
    (m ∈ ComparisonMutator.Check n →
      revertMutation m (applyMutation m n) = n ∧
      Node.serialize (revertMutation m (applyMutation m n)) = Node.serialize n) ∧
    (m ∈ BooleanMutator.Check n →
      revertMutation m (applyMutation m n) = n ∧
      Node.serialize (revertMutation m (applyMutation m n)) = Node.serialize n) ∧
    (m ∈ ConditionalsBoundaryMutator.Check n →
      revertMutation m (applyMutation m n) = n ∧
      Node.serialize (revertMutation m (applyMutation m n)) = Node.serialize n) ∧
    (m ∈ IncrementDecrementMutator.Check n →
      revertMutation m (applyMutation m n) = n ∧
      Node.serialize (revertMutation m (applyMutation m n)) = Node.serialize n) :=
  ⟨fun hm => ⟨arithmetic_roundtrip n m hm,
      congrArg Node.serialize (arithmetic_roundtrip n m hm)⟩,
   fun hm => ⟨comparison_roundtrip n m hm,
      congrArg Node.serialize (comparison_roundtrip n m hm)⟩,
   fun hm => ⟨boolean_roundtrip n m hm,
      congrArg Node.serialize (boolean_roundtrip n m hm)⟩,
   fun hm => ⟨conditionals_boundary_roundtrip n m hm,
      congrArg Node.serialize (conditionals_boundary_roundtrip n m hm)⟩,
   fun hm => ⟨incdec_roundtrip n m hm,
      congrArg Node.serialize (incdec_roundtrip n m hm)⟩⟩

/-- C2 witness: the arithmetic mutation on a concrete a + b node
round-trips. -/
theorem C2_apply_revert_roundtrip_witness :
    revertMutation (Mutation.mk "Arithmetic_10" 10 Tok.SUB Tok.ADD)
        (applyMutation (Mutation.mk "Arithmetic_10" 10 Tok.SUB Tok.ADD)
          (Node.expr (Expr.binaryExpr (Expr.ident "a" 10) 12 Tok.ADD (Expr.ident "b" 14))))
      = Node.expr (Expr.binaryExpr (Expr.ident "a" 10) 12 Tok.ADD (Expr.ident "b" 14)) ∧
    Node.serialize (revertMutation (Mutation.mk "Arithmetic_10" 10 Tok.SUB Tok.ADD)
        (applyMutation (Mutation.mk "Arithmetic_10" 10 Tok.SUB Tok.ADD)
          (Node.expr (Expr.binaryExpr (Expr.ident "a" 10) 12 Tok.ADD (Expr.ident "b" 14)))))
      = Node.serialize
          (Node.expr (Expr.binaryExpr (Expr.ident "a" 10) 12 Tok.ADD (Expr.ident "b" 14))) :=
  (C2_apply_revert_roundtrip
      (Node.expr (Expr.binaryExpr (Expr.ident "a" 10) 12 Tok.ADD (Expr.ident "b" 14)))
      (Mutation.mk "Arithmetic_10" 10 Tok.SUB Tok.ADD)).1 (by decide)

/-- C3 counterexample: an if statement whose condition x == y is exactly
the shape Comparison targets, yet ReverseIfCond matches it and produces
its mutation there: Check is true on the if statement and Apply rewrites
it in place into if !(x == y), as the serialized output shows. -/
theorem C3_counterexample :
    Comparison.Check
        (Node.expr (Expr.binaryExpr (Expr.ident "x" 4) 6 Tok.EQL (Expr.ident "y" 9))) = true ∧
    ReverseIfCond.Check (Node.stmt (Stmt.ifStmt 1
        (Expr.binaryExpr (Expr.ident "x" 4) 6 Tok.EQL (Expr.ident "y" 9))
        Stmt.empty Stmt.empty)) = true ∧
    ReverseIfCond.Apply (Node.stmt (Stmt.ifStmt 1
        (Expr.binaryExpr (Expr.ident "x" 4) 6 Tok.EQL (Expr.ident "y" 9))
        Stmt.empty Stmt.empty))
      = Node.stmt (Stmt.ifStmt 1
          (Expr.unaryExpr 0 Tok.NOT (Expr.parenExpr 0
            (Expr.binaryExpr (Expr.ident "x" 4) 6 Tok.EQL (Expr.ident "y" 9))))
          Stmt.empty Stmt.empty) ∧
    Node.serialize (ReverseIfCond.Apply (Node.stmt (Stmt.ifStmt 1
        (Expr.binaryExpr (Expr.ident "x" 4) 6 Tok.EQL (Expr.ident "y" 9))
        Stmt.empty Stmt.empty)))
      = "if !(x == y) \x7b  \x7d" := by
  decide

/-- C3 amended: ReverseIfCond does not skip conditions of the shapes
Comparison or Logical target. On every if statement whose condition is
such a binary expression, Check matches and Apply produces the mutation,
replacing the condition by the logical negation of its parenthesised
form (the hypothesis pins the condition to a binary expression, which is
exactly the case in which Apply inserts the parentheses). -/
theorem C3_reverse_if_cond_no_skip (p : Nat) (cond : Expr) (body els : Stmt)
    (h : Comparison.Check (Node.expr cond) = true ∨ Logical.Check (Node.expr cond) = true) :
    ReverseIfCond.Check (Node.stmt (Stmt.ifStmt p cond body els)) = true ∧
    ReverseIfCond.Apply (Node.stmt (Stmt.ifStmt p cond body els))
      = Node.stmt (Stmt.ifStmt p
          (Expr.unaryExpr 0 Tok.NOT (Expr.parenExpr 0 cond)) body els) := by
  rcases h with h | h <;> cases cond <;>
    first
      | exact ⟨rfl, rfl⟩
      | simp [Comparison.Check] at h
      | simp [Logical.Check] at h

/-- C3 witness: on a concrete if with condition a < b, Apply produces
the negated, parenthesised condition. -/
theorem C3_reverse_if_cond_no_skip_witness :
    ReverseIfCond.Apply (Node.stmt (Stmt.ifStmt 1
        (Expr.binaryExpr (Expr.ident "a" 4) 6 Tok.LSS (Expr.ident "b" 8))
        Stmt.empty Stmt.empty))
      = Node.stmt (Stmt.ifStmt 1
          (Expr.unaryExpr 0 Tok.NOT (Expr.parenExpr 0
            (Expr.binaryExpr (Expr.ident "a" 4) 6 Tok.LSS (Expr.ident "b" 8))))
          Stmt.empty Stmt.empty) :=
  (C3_reverse_if_cond_no_skip 1
    (Expr.binaryExpr (Expr.ident "a" 4) 6 Tok.LSS (Expr.ident "b" 8))
    Stmt.empty Stmt.empty (Or.inl (by decide))).2

/-- C4 counterexample: a profile key and a file name that agree on their
rightmost two path segments but are not suffixes of each other. The spec
wording makes the line covered; IsCovered returns false because the code
only does two-way string-suffix matching. -/
theorem C4_counterexample :
    specIsCovered (LoadCoverage ["mode: set", "b/pkg/file.go:1.1,5.2 1 1"])
        "a/pkg/file.go" 3 = true ∧
    (LoadCoverage ["mode: set", "b/pkg/file.go:1.1,5.2 1 1"]).IsCovered
        "a/pkg/file.go" 3 = false := by
  decide

/-- C4 amended: IsCovered over a loaded profile returns true exactly when
some entry whose key is a plain string suffix of the file name, or of
which the file name is a plain string suffix, holds a block whose line
range contains the line; every stored block has positive count because
count-zero blocks are discarded at load time. No segment-based matching
is performed. -/
theorem C4_is_covered_characterization (contents : List String) (f : String) (l : Int) :
    (LoadCoverage contents).IsCovered f l = true ↔
      ∃ kb ∈ (LoadCoverage contents).Blocks,
        (goHasSuffix f kb.1 = true ∨ goHasSuffix kb.1 f = true) ∧
        ∃ b ∈ kb.2, 0 < b.Count ∧ b.StartLine ≤ l ∧ l ≤ b.EndLine := by
  constructor
  · intro h
    rw [Coverage.IsCovered, List.any_eq_true] at h
    rcases h with ⟨kb, hkb, hpred⟩
    rw [Bool.and_eq_true, Bool.or_eq_true, List.any_eq_true] at hpred
    rcases hpred with ⟨hsuf, b, hb, hrange⟩
    rw [decide_eq_true_eq] at hrange
    exact ⟨kb, hkb, hsuf, b, hb,
      loadCoverage_count_pos contents kb hkb b hb, hrange.1, hrange.2⟩
  · rintro ⟨kb, hkb, hsuf, b, hb, _, h1, h2⟩
    rw [Coverage.IsCovered, List.any_eq_true]
    refine ⟨kb, hkb, ?_⟩
    rw [Bool.and_eq_true, Bool.or_eq_true, List.any_eq_true]
    exact ⟨hsuf, b, hb, by rw [decide_eq_true_eq]; exact ⟨h1, h2⟩⟩

/-- C5 counterexample: the stream decodes one pass event and then hits a
decode error; the decoded event is not used as truth: the worker sees the
non-nil error and classifies the run killed with the build-failure flag
1, not survived. -/
theorem C5_counterexample :
    (runGoTest false false
        [DecodeToken.ok (TestEvent.mk "2024-01-01T00:00:00Z" "pass" "example.com/p" "TestAdd" 0 ""),
         DecodeToken.bad]).1
      = [TestEvent.mk "2024-01-01T00:00:00Z" "pass" "example.com/p" "TestAdd" 0 ""] ∧
    (TestEvent.mk "2024-01-01T00:00:00Z" "pass" "example.com/p" "TestAdd" 0
        (String.mk [])).Action ≠ "fail" ∧
    classifyOutcome false
        (runGoTest false false
          [DecodeToken.ok (TestEvent.mk "2024-01-01T00:00:00Z" "pass" "example.com/p" "TestAdd" 0 ""),
           DecodeToken.bad]).1
        (runGoTest false false
          [DecodeToken.ok (TestEvent.mk "2024-01-01T00:00:00Z" "pass" "example.com/p" "TestAdd" 0 ""),
           DecodeToken.bad]).2
      = ("killed", 1) := by
  refine ⟨rfl, by decide, rfl⟩

/-- C5 amended: on any decode error parseGoTestOutput returns the events
decoded before the error together with a non-nil error, and the worker
then classifies the run killed with build-failure flag 1; the decoded
events are consulted only when no error occurred. -/
theorem C5_decode_error_classification (cmdErr : Bool) (out : List DecodeToken)
    (h : (parseGoTestOutput out).2 = true) :
    (runGoTest false cmdErr out).1 = (parseGoTestOutput out).1 ∧
    (runGoTest false cmdErr out).2 = some GoTestErr.decodeError ∧
    classifyOutcome false (runGoTest false cmdErr out).1 (runGoTest false cmdErr out).2
      = ("killed", 1) := by
  have hne : out.isEmpty = false := by
    cases out with
    | nil => simp [parseGoTestOutput] at h
    | cons a t => rfl
  rw [runGoTest]
  simp only [if_neg (Bool.not_eq_true _ ▸ by simp [hne] : ¬(cmdErr && out.isEmpty) = true)]
  simp [hne, h, classifyOutcome]

/-- C5 witness: a stream that is a single decode error. -/
theorem C5_decode_error_classification_witness :
    (runGoTest false false [DecodeToken.bad]).1
        = (parseGoTestOutput [DecodeToken.bad]).1 ∧
    (runGoTest false false [DecodeToken.bad]).2 = some GoTestErr.decodeError ∧
    classifyOutcome false (runGoTest false false [DecodeToken.bad]).1
        (runGoTest false false [DecodeToken.bad]).2
      = ("killed", 1) :=
  C5_decode_error_classification false [DecodeToken.bad] (by decide)

/-- C6: the score is (Killed + Timeouts) / Total * 100 when Total is
positive and 0 when Total is zero. -/
theorem C6_report_score (r : Report) :
    (r.Total = 0 → r.Score = 0) ∧
    (r.Total ≠ 0 →
      r.Score = ((r.Killed : Rat) + (r.Timeouts : Rat)) / (r.Total : Rat) * 100) := by
  constructor <;> intro h <;> simp [Report.Score, h]

/-- C6 witness: a report with 4 total, 1 killed and 1 timeout. -/
theorem C6_report_score_witness :
    Report.Score (Report.mk 4 1 1 2 0 0)
      = (((Report.mk 4 1 1 2 0 0).Killed : Rat) + ((Report.mk 4 1 1 2 0 0).Timeouts : Rat))
        / ((Report.mk 4 1 1 2 0 0).Total : Rat) * 100 :=
  (C6_report_score (Report.mk 4 1 1 2 0 0)).2 (by decide)

/-- C7: after the collector processes any result sequence whose statuses
are among killed, killed (timeout), survived and uncovered, the total
equals the sum of the four counters, the score lies between 0 and 100,
and one collector step preserves the balance. -/
theorem C7_aggregator_invariant (results : List MutationResult)
    (h : ∀ r ∈ results, r.status = "killed" ∨ r.status = "killed (timeout)" ∨
        r.status = "survived" ∨ r.status = "uncovered") :
    (collectReport results).Total
        = (collectReport results).Killed + (collectReport results).Timeouts
          + (collectReport results).Survived + (collectReport results).Uncovered ∧
    0 ≤ (collectReport results).Score ∧ (collectReport results).Score ≤ 100 ∧
    (∀ (rep : Report) (r : MutationResult),
      (r.status = "killed" ∨ r.status = "killed (timeout)" ∨ r.status = "survived" ∨
        r.status = "uncovered") →
      rep.Total = rep.Killed + rep.Timeouts + rep.Survived + rep.Uncovered →
      (processResult rep r).Total
        = (processResult rep r).Killed + (processResult rep r).Timeouts
          + (processResult rep r).Survived + (processResult rep r).Uncovered) := by
  have hbal : (collectReport results).Total
      = (collectReport results).Killed + (collectReport results).Timeouts
        + (collectReport results).Survived + (collectReport results).Uncovered :=
    foldl_processResult_balanced results
      { Total := 0, Killed := 0, Timeouts := 0, Survived := 0, Uncovered := 0
      , BuildFailures := 0 } h rfl
  refine ⟨hbal, report_score_nonneg _, report_score_le_hundred _ (by omega), ?_⟩
  intro rep r hr hrep
  exact processResult_balanced rep r hr hrep

/-- C7 witness: a single killed result. -/
theorem C7_aggregator_invariant_witness :
    (collectReport [MutationResult.mk "killed" "Arithmetic_1" "main.go" 3 5 0]).Total
      = (collectReport [MutationResult.mk "killed" "Arithmetic_1" "main.go" 3 5 0]).Killed
        + (collectReport [MutationResult.mk "killed" "Arithmetic_1" "main.go" 3 5 0]).Timeouts
        + (collectReport [MutationResult.mk "killed" "Arithmetic_1" "main.go" 3 5 0]).Survived
        + (collectReport [MutationResult.mk "killed" "Arithmetic_1" "main.go" 3 5 0]).Uncovered :=
  (C7_aggregator_invariant [MutationResult.mk "killed" "Arithmetic_1" "main.go" 3 5 0]
    (by decide)).1

/-- C8 counterexample: a mapping whose two sides are both relative paths
is accepted by the writer (no error), so the writer does not reject
relative paths. -/
theorem C8_counterexample :
    createOverlayFile false [("rel/orig.go", "rel/variant.go")]
      = Except.ok (OverlayDoc.mk [("rel/orig.go", "rel/variant.go")]) ∧
    goIsAbs "rel/orig.go" = false ∧ goIsAbs "rel/variant.go" = false := by
  refine ⟨rfl, by decide, by decide⟩

/-- C8 amended: the writer produces a document whose single top-level
field Replace holds exactly the given original-to-variant mapping; it
performs no validation of the mapped paths, so relative paths are
accepted, and its only failure source is file creation or writing. -/
theorem C8_overlay_writer (createFails : Bool) (overlays : List (String × String)) :
    createOverlayFile createFails overlays
      = (if createFails then Except.error ()
         else Except.ok (OverlayDoc.mk overlays)) := rfl

/-- C9 counterexample: on a + b with the left operand at position 1 and
the operator token at position 3, the produced Mutation reports position
1 (the expression start), not the operator position 3. -/
theorem C9_counterexample :
    (ArithmeticMutator.Check
        (Node.expr (Expr.binaryExpr (Expr.ident "a" 1) 3 Tok.ADD (Expr.ident "b" 5)))).map
        Mutation.Pos = [1] ∧
    (Expr.binaryExpr (Expr.ident "a" 1) 3 Tok.ADD (Expr.ident "b" 5)).opPos = some 3 := by
  decide

/-- C9 amended: every Mutation produced by the Mutation-style operators
on a binary expression reports the start position of the expression (the
start of its left operand), not the operator token position; the
boolean-interface Position methods are the ones that report OpPos, with
SwapArithmetic falling back to the start of the node for non-binary
nodes. -/
theorem C9_mutation_position (x y : Expr) (p : Nat) (op : Tok) (m : Mutation) (s : Stmt) :
    (m ∈ ArithmeticMutator.Check (Node.expr (Expr.binaryExpr x p op y)) →
        m.Pos = (Expr.binaryExpr x p op y).pos) ∧
    (m ∈ ComparisonMutator.Check (Node.expr (Expr.binaryExpr x p op y)) →
        m.Pos = (Expr.binaryExpr x p op y).pos) ∧
    (m ∈ BooleanMutator.Check (Node.expr (Expr.binaryExpr x p op y)) →
        m.Pos = (Expr.binaryExpr x p op y).pos) ∧
    (m ∈ ConditionalsBoundaryMutator.Check (Node.expr (Expr.binaryExpr x p op y)) →
        m.Pos = (Expr.binaryExpr x p op y).pos) ∧
    Comparison.Position (Node.expr (Expr.binaryExpr x p op y)) = some p ∧
    Logical.Position (Node.expr (Expr.binaryExpr x p op y)) = some p ∧
    SwapArithmetic.Position (Node.expr (Expr.binaryExpr x p op y)) = p ∧
    SwapArithmetic.Position (Node.stmt s) = (Node.stmt s).pos := by
  refine ⟨?_, ?_, ?_, ?_, rfl, rfl, rfl, rfl⟩ <;> intro hm
  · cases op <;> simp [ArithmeticMutator.Check, arithmeticNewOp] at hm <;>
      (subst hm; rfl)
  · cases op <;> simp [ComparisonMutator.Check, comparisonNewOp] at hm <;>
      (subst hm; rfl)
  · cases op <;> simp [BooleanMutator.Check, booleanNewOp] at hm <;>
      (subst hm; rfl)
  · cases op <;> simp [ConditionalsBoundaryMutator.Check, conditionalsBoundaryNewOp] at hm <;>
      (subst hm; rfl)

/-- C9 witness: a concrete c * d node. -/
theorem C9_mutation_position_witness :
    (Mutation.mk "Arithmetic_2" 2 Tok.QUO Tok.MUL).Pos
      = (Expr.binaryExpr (Expr.ident "c" 2) 4 Tok.MUL (Expr.ident "d" 6)).pos :=
  (C9_mutation_position (Expr.ident "c" 2) (Expr.ident "d" 6) 4 Tok.MUL
      (Mutation.mk "Arithmetic_2" 2 Tok.QUO Tok.MUL) Stmt.empty).1 (by decide)

/-- C10: the defaulting prologue of Run replaces Workers at most 0 with
the CPU count, Timeout at most 0 with 10 seconds in nanoseconds, and Seed
0 with the wall clock in nanoseconds, leaving other values unchanged; so
the effective worker count and timeout are positive, and the seed is
nonzero whenever the clock is. -/
theorem C10_config_defaults (numCPU nowUnixNano : Int) (config : Config)
    (hcpu : 1 ≤ numCPU) :
    (applyConfigDefaults numCPU nowUnixNano config).Workers
        = (if config.Workers ≤ 0 then numCPU else config.Workers) ∧
    (applyConfigDefaults numCPU nowUnixNano config).Timeout
        = (if config.Timeout ≤ 0 then 10 * 1000000000 else config.Timeout) ∧
    (applyConfigDefaults numCPU nowUnixNano config).Seed
        = (if config.Seed = 0 then nowUnixNano else config.Seed) ∧
    0 < (applyConfigDefaults numCPU nowUnixNano config).Workers ∧
    0 < (applyConfigDefaults numCPU nowUnixNano config).Timeout ∧
    (nowUnixNano ≠ 0 → (applyConfigDefaults numCPU nowUnixNano config).Seed ≠ 0) := by
  by_cases hW : config.Workers ≤ 0 <;> by_cases hT : config.Timeout ≤ 0 <;>
    by_cases hS : config.Seed = 0 <;>
    simp [applyConfigDefaults, hW, hT, hS] <;> omega

/-- C10 witness: a zero configuration with 8 CPUs and a nonzero clock. -/
theorem C10_config_defaults_witness :
    0 < (applyConfigDefaults 8 1234 (Config.mk false "" 0 0 false 0)).Workers :=
  (C10_config_defaults 8 1234 (Config.mk false "" 0 0 false 0) (by decide)).2.2.2.1

end Selene
